import Mathlib

/-! Alloy front end: the type model (`parser/type.go`) and the AST (`parser/ast.go`).

A shallow embedding of the Go package `parser`.

* A Go `string` is a Lean `String` (written `Str` below, because several of the
  embedded methods are themselves called `String`).
* A Go interface value that may be `nil` is an `Option`; `none` is `nil`.
* A Go run-time panic (slice out of range, failed type assertion, method call on a
  `nil` interface) is the result `none` of a function returning `Option`.
* A Go method with a receiver mutated in place returns the updated receiver.
-/

/-- A Go `string`. -/
abbrev Str := String

/-- A Go slice, read as the sequence of its elements. -/
abbrev Slice := List

namespace parser

/-! ## Go built-ins used by the package -/

/-- The Go slice expression `s[n:]` on a string. Go panics when `n` exceeds `len(s)`,
the length in bytes. The only strings the package slices are ASCII identifiers, where
a byte is a character, so the kept part is the string without its first `n` characters. -/
def sliceFrom (s : Str) (n : Nat) : Option Str :=
  if n ≤ s.utf8ByteSize then some (String.mk (s.data.drop n)) else none

/-! ## `type.go`: primitive types -/

/-- The constants of `type PrimitiveType int`, in `iota` order. -/
inductive PrimitiveType
  | PRIMITIVE_i8
  | PRIMITIVE_i16
  | PRIMITIVE_i32
  | PRIMITIVE_i64
  | PRIMITIVE_i128
  | PRIMITIVE_u8
  | PRIMITIVE_u16
  | PRIMITIVE_u32
  | PRIMITIVE_u64
  | PRIMITIVE_u128
  | PRIMITIVE_f32
  | PRIMITIVE_f64
  | PRIMITIVE_f128
  | PRIMITIVE_str
  | PRIMITIVE_rune
  | PRIMITIVE_int
  | PRIMITIVE_uint
  | PRIMITIVE_bool
  deriving DecidableEq, Repr

/-- Modelled from the spec: the method `PrimitiveType.String`, generated by
`go:generate stringer -type=PrimitiveType` into a file that is not among the sources.
It is the fixed string table with one entry per variant, each entry being the
identifier of the enumeration tag. -/
def PrimitiveType.String : PrimitiveType → Str
  | .PRIMITIVE_i8 => "PRIMITIVE_i8"
  | .PRIMITIVE_i16 => "PRIMITIVE_i16"
  | .PRIMITIVE_i32 => "PRIMITIVE_i32"
  | .PRIMITIVE_i64 => "PRIMITIVE_i64"
  | .PRIMITIVE_i128 => "PRIMITIVE_i128"
  | .PRIMITIVE_u8 => "PRIMITIVE_u8"
  | .PRIMITIVE_u16 => "PRIMITIVE_u16"
  | .PRIMITIVE_u32 => "PRIMITIVE_u32"
  | .PRIMITIVE_u64 => "PRIMITIVE_u64"
  | .PRIMITIVE_u128 => "PRIMITIVE_u128"
  | .PRIMITIVE_f32 => "PRIMITIVE_f32"
  | .PRIMITIVE_f64 => "PRIMITIVE_f64"
  | .PRIMITIVE_f128 => "PRIMITIVE_f128"
  | .PRIMITIVE_str => "PRIMITIVE_str"
  | .PRIMITIVE_rune => "PRIMITIVE_rune"
  | .PRIMITIVE_int => "PRIMITIVE_int"
  | .PRIMITIVE_uint => "PRIMITIVE_uint"
  | .PRIMITIVE_bool => "PRIMITIVE_bool"

/-- The method `func (v PrimitiveType) IsIntegerType() bool`. -/
def PrimitiveType.IsIntegerType : PrimitiveType → Bool
  | .PRIMITIVE_i8 | .PRIMITIVE_i16 | .PRIMITIVE_i32 | .PRIMITIVE_i64 | .PRIMITIVE_i128
  | .PRIMITIVE_u8 | .PRIMITIVE_u16 | .PRIMITIVE_u32 | .PRIMITIVE_u64 | .PRIMITIVE_u128
  | .PRIMITIVE_int | .PRIMITIVE_uint => true
  | _ => false

/-- The method `func (v PrimitiveType) IsFloatingType() bool`. -/
def PrimitiveType.IsFloatingType : PrimitiveType → Bool
  | .PRIMITIVE_f32 | .PRIMITIVE_f64 | .PRIMITIVE_f128 => true
  | _ => false

/-- The method `func (v PrimitiveType) TypeName() string`, `v.String()[10:]`. -/
def PrimitiveType.TypeName (v : PrimitiveType) : Option Str :=
  sliceFrom v.String 10

/-! ## Types declared outside the two source files -/

/-- Modelled from the spec: `Attr`, an attribute (a metadata tag such as a packing
hint), declared outside the sources. Only its identity matters here; its string form
is supplied by `Ext.AttrString`. -/
structure Attr where
  Key : Str
  deriving DecidableEq, Repr

/-- Modelled from the spec: `BinOpType`, the operator tag of a binary expression,
taken from a fixed enumeration declared outside the sources and represented by its
number in that enumeration. -/
structure BinOpType where
  tag : Nat
  deriving DecidableEq, Repr

/-- Modelled from the spec: `UnOpType`, the operator tag of a unary expression, taken
from a fixed enumeration declared outside the sources and represented by its number in
that enumeration. -/
structure UnOpType where
  tag : Nat
  deriving DecidableEq, Repr

/-! ## `ast.go`: literal expressions -/

/-- The struct `RuneLiteral`; a Go `rune` is an `int32`. -/
structure RuneLiteral where
  Value : Int

/-- The struct `IntegerLiteral`; `Value` is a `uint64`. -/
structure IntegerLiteral where
  Value : Nat

/-- The struct `FloatingLiteral`; `Value` is a `float64`. -/
structure FloatingLiteral where
  Value : Float

/-- The struct `StringLiteral`. -/
structure StringLiteral where
  Value : Str

/-! ## The mutually recursive part of the data model

`Ty` is the Go interface `Type` restricted to well-formed values: a value is a
`PrimitiveType`, a non-nil `*StructType` or a `PointerType` whose `Addressee` is again
such a value, so pointer nesting is finite. A field of interface type that the code or
the analysis may leave unset (`Variable.Type`, `Function.Type`, `BinaryExpr.Type`,
`UnaryExpr.Type`, `VariableDecl.Assignment`) is an `Option`. -/

mutual
/-- The interface `Type`, non-nil. -/
inductive Ty
  | primitive (v : PrimitiveType)
  | struct (v : StructType)
  | pointer (v : PointerType)
/-- The struct `PointerType`. -/
inductive PointerType
  | mk (Addressee : Ty)
/-- The struct `StructType`; `Items` is a `container/list` list, read front to back. -/
inductive StructType
  | mk (Name : Str) (Items : List Element) (Attrs : List Attr)
/-- The `Value` of a `container/list` element, an `interface{}`: by convention a
`*VariableDecl`, but the container accepts a value of any other dynamic type. -/
inductive Element
  | decl (d : VariableDecl)
  | other
/-- The struct `VariableDecl`. -/
inductive VariableDecl
  | mk (Variable : Variable) (Assignment : Option Expr)
/-- The struct `Variable`. -/
inductive Variable
  | mk (Typ : Option Ty) (Name : Str) (Mutable : Bool) (Attrs : List Attr)
/-- The interface `Expr`, non-nil: the six expression nodes of `ast.go`. -/
inductive Expr
  | rune (v : RuneLiteral)
  | integer (v : IntegerLiteral)
  | floating (v : FloatingLiteral)
  | string (v : StringLiteral)
  | binary (v : BinaryExpr)
  | unary (v : UnaryExpr)
/-- The struct `BinaryExpr`. -/
inductive BinaryExpr
  | mk (Lhand Rhand : Expr) (Op : BinOpType) (Typ : Option Ty)
/-- The struct `UnaryExpr`. -/
inductive UnaryExpr
  | mk (Expr : Expr) (Op : UnOpType) (Typ : Option Ty)
end

/-! ## `type.go`: the five queries of the interface `Type` -/

/-- The method `func (v PrimitiveType) RawType() Type`. -/
def PrimitiveType.RawType (v : PrimitiveType) : Ty := .primitive v

/-- The method `func (v PrimitiveType) LevelsOfIndirection() int`. -/
def PrimitiveType.LevelsOfIndirection (_v : PrimitiveType) : Nat := 0

/-- The field `Name` of a `StructType`. -/
def StructType.Name : StructType → Str
  | .mk Name _ _ => Name

/-- The field `Items` of a `StructType`. -/
def StructType.Items : StructType → Slice Element
  | .mk _ Items _ => Items

/-- The field `Attrs` of a `StructType`. -/
def StructType.Attrs : StructType → Slice Attr
  | .mk _ _ Attrs => Attrs

/-- The method `func (v *StructType) TypeName() string`. -/
def StructType.TypeName (v : StructType) : Str := v.Name

/-- The method `func (v *StructType) RawType() Type`. -/
def StructType.RawType (v : StructType) : Ty := .struct v

/-- The method `func (v *StructType) LevelsOfIndirection() int`. -/
def StructType.LevelsOfIndirection (_v : StructType) : Nat := 0

/-- The method `func (v *StructType) IsIntegerType() bool`. -/
def StructType.IsIntegerType (_v : StructType) : Bool := false

/-- The method `func (v *StructType) IsFloatingType() bool`. -/
def StructType.IsFloatingType (_v : StructType) : Bool := false

/-- The function `func pointerTo(t Type) PointerType`. -/
def pointerTo (t : Ty) : PointerType := .mk t

/-- The field `Addressee` of a `PointerType`. -/
def PointerType.Addressee : PointerType → Ty
  | .mk Addressee => Addressee

/-- The method `func (v PointerType) IsIntegerType() bool`. -/
def PointerType.IsIntegerType (_v : PointerType) : Bool := false

/-- The method `func (v PointerType) IsFloatingType() bool`. -/
def PointerType.IsFloatingType (_v : PointerType) : Bool := false

mutual
/-- The call `t.TypeName()` on an interface value: dispatch on the dynamic type. -/
def Ty.TypeName : Ty → Option Str
  | .primitive v => v.TypeName
  | .struct v => some v.TypeName
  | .pointer v => v.TypeName
/-- The method `func (v PointerType) TypeName() string`. -/
def PointerType.TypeName : PointerType → Option Str
  | .mk Addressee => do
    let name ← Addressee.TypeName
    pure ("^" ++ name)
end

mutual
/-- The call `t.RawType()` on an interface value: dispatch on the dynamic type. -/
def Ty.RawType : Ty → Ty
  | .primitive v => v.RawType
  | .struct v => v.RawType
  | .pointer v => v.RawType
/-- The method `func (v PointerType) RawType() Type`. -/
def PointerType.RawType : PointerType → Ty
  | .mk Addressee => Addressee.RawType
end

mutual
/-- The call `t.LevelsOfIndirection()` on an interface value. -/
def Ty.LevelsOfIndirection : Ty → Nat
  | .primitive v => v.LevelsOfIndirection
  | .struct v => v.LevelsOfIndirection
  | .pointer v => v.LevelsOfIndirection
/-- The method `func (v PointerType) LevelsOfIndirection() int`. The depth is a natural
number: a type value with `2^63` pointer layers does not fit in memory, so the Go `int`
never wraps. -/
def PointerType.LevelsOfIndirection : PointerType → Nat
  | .mk Addressee => Addressee.LevelsOfIndirection + 1
end

/-- The call `t.IsIntegerType()` on an interface value. -/
def Ty.IsIntegerType : Ty → Bool
  | .primitive v => v.IsIntegerType
  | .struct v => v.IsIntegerType
  | .pointer v => v.IsIntegerType

/-- The call `t.IsFloatingType()` on an interface value. -/
def Ty.IsFloatingType : Ty → Bool
  | .primitive v => v.IsFloatingType
  | .struct v => v.IsFloatingType
  | .pointer v => v.IsFloatingType

/-- A type `t` wrapped in `n` pointer layers: `pointerTo` applied `n` times. -/
def pointerToN : Nat → Ty → Ty
  | 0, t => t
  | n + 1, t => .pointer (pointerTo (pointerToN n t))

/-- Whether the dynamic type of an interface value is `PointerType`. -/
def Ty.isPointerType : Ty → Bool
  | .pointer _ => true
  | _ => false

/-! ## Collaborators of the serialization that lie outside the two source files -/

/-- Modelled from the spec: what `String` calls outside the two source files. `Blue`,
`Green` and `Yellow` are the colour wrappers of package `util` (debug pretty-printer
colour formatting); `AttrString`, `BinOpString` and `UnOpString` are the `String`
methods of `Attr`, `BinOpType` and `UnOpType`; `FormatFloat` is the verb `%f` of
`fmt.Sprintf` on a `float64`. -/
structure Ext where
  Blue : Str → Str
  Green : Str → Str
  Yellow : Str → Str
  AttrString : Attr → Str
  BinOpString : BinOpType → Str
  UnOpString : UnOpType → Str
  FormatFloat : Float → Str

/-- The verb `%c` of `fmt.Sprintf` on a `rune`: the character with that code point,
U+FFFD when the number is not a valid code point. -/
def formatRune (r : Int) : Str :=
  if 0 ≤ r ∧ Nat.isValidChar r.toNat then String.singleton (Char.ofNat r.toNat)
  else String.singleton (Char.ofNat 0xFFFD)

/-- The verb `%d` of `fmt.Sprintf` on a `uint64`: the decimal numeral. -/
def formatUint (n : Nat) : Str := toString n

/-- The loop `for _, attr := range attrs { result += attr.String() + " " }`, shared by
`Variable.String`, `Function.String` and `StructType.String`. -/
def attrsLoop (E : Ext) (attrs : Slice Attr) (result : Str) : Str :=
  attrs.foldl (fun result attr => result ++ (E.AttrString attr ++ " ")) result

/-! ## `ast.go`: expressions

A colour wrapper surrounds its argument with escape sequences that hold no formatting
verb, so `fmt.Sprintf` on a format with a wrapped verb gives the format with the
wrapped formatted value in the verb's place. Operands of operator expressions are
non-nil (well-formed trees). -/

/-- The method `func (v *RuneLiteral) String() string`. -/
def RuneLiteral.String (E : Ext) (v : RuneLiteral) : Str :=
  "(" ++ E.Blue "RuneLiteral" ++ ": " ++ E.Yellow (formatRune v.Value) ++ ")"

/-- The method `func (v *RuneLiteral) GetType() Type`. -/
def RuneLiteral.GetType (_v : RuneLiteral) : Option Ty :=
  some (.primitive .PRIMITIVE_rune)

/-- The method `func (v *IntegerLiteral) String() string`. -/
def IntegerLiteral.String (E : Ext) (v : IntegerLiteral) : Str :=
  "(" ++ E.Blue "IntegerLiteral" ++ ": " ++ E.Yellow (formatUint v.Value) ++ ")"

/-- The method `func (v *IntegerLiteral) GetType() Type`. -/
def IntegerLiteral.GetType (_v : IntegerLiteral) : Option Ty :=
  some (.primitive .PRIMITIVE_int)

/-- The method `func (v *FloatingLiteral) String() string`. -/
def FloatingLiteral.String (E : Ext) (v : FloatingLiteral) : Str :=
  "(" ++ E.Blue "FloatingLiteral" ++ ": " ++ E.Yellow (E.FormatFloat v.Value) ++ ")"

/-- The method `func (v *FloatingLiteral) GetType() Type`. -/
def FloatingLiteral.GetType (_v : FloatingLiteral) : Option Ty :=
  some (.primitive .PRIMITIVE_f64)

/-- The method `func (v *StringLiteral) String() string`. -/
def StringLiteral.String (E : Ext) (v : StringLiteral) : Str :=
  "(" ++ E.Blue "StringLiteral" ++ ": " ++ E.Yellow v.Value ++ ")"

/-- The method `func (v *StringLiteral) GetType() Type`. -/
def StringLiteral.GetType (_v : StringLiteral) : Option Ty :=
  some (.primitive .PRIMITIVE_str)

/-- The method `func (v *BinaryExpr) GetType() Type`: the field `Type`, `nil` included. -/
def BinaryExpr.GetType : BinaryExpr → Option Ty
  | .mk _ _ _ Typ => Typ

/-- The method `func (v *UnaryExpr) GetType() Type`: the field `Type`, `nil` included. -/
def UnaryExpr.GetType : UnaryExpr → Option Ty
  | .mk _ _ Typ => Typ

/-- The call `e.GetType()` on an interface value: dispatch on the dynamic type. -/
def Expr.GetType : Expr → Option Ty
  | .rune v => v.GetType
  | .integer v => v.GetType
  | .floating v => v.GetType
  | .string v => v.GetType
  | .binary v => v.GetType
  | .unary v => v.GetType

mutual
/-- The call `e.String()` on an interface value: dispatch on the dynamic type. -/
def Expr.String (E : Ext) : Expr → Str
  | .rune v => v.String E
  | .integer v => v.String E
  | .floating v => v.String E
  | .string v => v.String E
  | .binary v => v.String E
  | .unary v => v.String E
/-- The method `func (v *BinaryExpr) String() string`. -/
def BinaryExpr.String (E : Ext) : BinaryExpr → Str
  | .mk Lhand Rhand Op _ =>
    "(" ++ E.Blue "BinaryExpr" ++ ": " ++ Lhand.String E ++ " " ++
      E.BinOpString Op ++ " " ++
      Rhand.String E ++ ")"
/-- The method `func (v *UnaryExpr) String() string`. -/
def UnaryExpr.String (E : Ext) : UnaryExpr → Str
  | .mk operand Op _ =>
    "(" ++ E.Blue "UnaryExpr" ++ ": " ++
      E.UnOpString Op ++ " " ++ operand.String E ++ ")"
end

/-! ## `ast.go`: variables, declarations, statements -/

/-- The method `func (v *Variable) String() string`; `v.Type.TypeName()` panics on a
`nil` `Type`. -/
def Variable.String (E : Ext) : Variable → Option Str
  | .mk Typ Name Mutable Attrs => do
    let result := "(" ++ E.Blue "Variable" ++ ": "
    let result := if Mutable then result ++ E.Green "[mutable] " else result
    let result := attrsLoop E Attrs result
    let t ← Typ
    let name ← t.TypeName
    pure (result ++ Name ++ " " ++ E.Green name ++ ")")

/-- The method `func (v *VariableDecl) String() string`. -/
def VariableDecl.String (E : Ext) : VariableDecl → Option Str
  | .mk var none => do
    let s ← var.String E
    pure ("(" ++ E.Blue "VariableDecl" ++ ": " ++ s ++ ")")
  | .mk var (some Assignment) => do
    let s ← var.String E
    pure ("(" ++ E.Blue "VariableDecl" ++ ": " ++ s ++
      " = " ++ Assignment.String E ++ ")")

/-- The type assertion `item.Value.(*VariableDecl)`: a panic on any other dynamic type. -/
def Element.assertVariableDecl : Element → Option VariableDecl
  | .decl d => some d
  | .other => none

/-- The method `func (v *StructType) String() string`. -/
def StructType.String (E : Ext) (v : StructType) : Option Str := do
  let result := "(" ++ E.Blue "StructType" ++ ": "
  let result := attrsLoop E v.Attrs result
  let result := result ++ (v.Name ++ "\n")
  let result ← v.Items.foldlM (fun result item => do
    let d ← item.assertVariableDecl
    let s ← d.String E
    pure (result ++ ("\t" ++ s ++ "\n"))) result
  pure (result ++ ")")

/-- The struct `StructDecl`. -/
structure StructDecl where
  Struct : StructType

/-- The method `func (v *StructDecl) String() string`. -/
def StructDecl.String (E : Ext) (v : StructDecl) : Option Str := do
  let s ← v.Struct.String E
  pure ("(" ++ E.Blue "StructDecl" ++ ": " ++ s ++ ")")

/-- The struct `ReturnStat`. -/
structure ReturnStat where
  Value : Expr

/-- The method `func (v *ReturnStat) String() string`. -/
def ReturnStat.String (E : Ext) (v : ReturnStat) : Str :=
  "(" ++ E.Blue "ReturnStat" ++ ": " ++
    v.Value.String E ++ ")"

/-! ## `ast.go`: the container `List` -/

/-- The struct `List` of `ast.go` (named `GoList` here, `List` being taken). -/
structure GoList where
  Items : Slice Element

/-- The loop of `List.String`, from the element `item` on: each entry's string, and a
space after it when `item.Next() != nil`. -/
def GoList.stringLoop (E : Ext) : Slice Element → Str → Option Str
  | [], result => some result
  | item :: rest, result => do
    let d ← item.assertVariableDecl
    let s ← d.String E
    let result := result ++ s
    let result := if rest.isEmpty then result else result ++ " "
    GoList.stringLoop E rest result

/-- The method `func (v *List) String() string`. -/
def GoList.String (E : Ext) (v : GoList) : Option Str := do
  let result := "(" ++ E.Blue "List" ++ ": "
  let result ← GoList.stringLoop E v.Items result
  let result := result ++ ")"
  pure result

/-! ## `ast.go`: nodes, functions and blocks -/

mutual
/-- The interface `Node`, non-nil: the declarations, statements and expressions of
`ast.go`. -/
inductive Node
  | variableDecl (v : VariableDecl)
  | structDecl (v : StructDecl)
  | functionDecl (v : FunctionDecl)
  | returnStat (v : ReturnStat)
  | expr (v : Expr)
/-- The struct `FunctionDecl`. -/
inductive FunctionDecl
  | mk (Function : Function)
/-- The struct `Function`; `Body` is `nil` for a declaration without a body. -/
inductive Function
  | mk (Name : Str) (Parameters : GoList) (Typ : Option Ty) (Mutable : Bool)
      (Attrs : List Attr) (Body : Option Block)
/-- The struct `Block`. -/
inductive Block
  | mk (Nodes : List Node)
end

/-- The field `Nodes` of a `Block`. -/
def Block.Nodes : Block → Slice Node
  | .mk Nodes => Nodes

/-- The function `func newBlock() *Block`. -/
def newBlock : Block := .mk []

/-- The method `func (v *Block) appendNode(n Node)`; the result is the receiver after
the call. -/
def Block.appendNode (v : Block) (n : Node) : Block :=
  .mk (v.Nodes ++ [n])

mutual
/-- The call `n.String()` on an interface value: dispatch on the dynamic type. -/
def Node.String (E : Ext) : Node → Option Str
  | .variableDecl v => v.String E
  | .structDecl v => v.String E
  | .functionDecl v => v.String E
  | .returnStat v => some (v.String E)
  | .expr v => some (v.String E)
/-- The method `func (v *FunctionDecl) String() string`. -/
def FunctionDecl.String (E : Ext) : FunctionDecl → Option Str
  | .mk fn => do
    let s ← fn.String E
    pure ("(" ++ E.Blue "FunctionDecl" ++ ": " ++ s ++ ")")
/-- The method `func (v *Function) String() string`. -/
def Function.String (E : Ext) : Function → Option Str
  | .mk Name Parameters Typ Mutable Attrs none => do
    let result := "(" ++ E.Blue "Function" ++ ": "
    let result := if Mutable then result ++ E.Green "[mutable] " else result
    let result := attrsLoop E Attrs result
    let params ← Parameters.String E
    let t ← Typ
    let name ← t.TypeName
    let result := result ++ (Name ++ " " ++ params ++ ": " ++ E.Green name ++ " ")
    pure (result ++ ")")
  | .mk Name Parameters Typ Mutable Attrs (some Body) => do
    let result := "(" ++ E.Blue "Function" ++ ": "
    let result := if Mutable then result ++ E.Green "[mutable] " else result
    let result := attrsLoop E Attrs result
    let params ← Parameters.String E
    let t ← Typ
    let name ← t.TypeName
    let result := result ++ (Name ++ " " ++ params ++ ": " ++ E.Green name ++ " ")
    let body ← Body.String E
    let result := result ++ body
    pure (result ++ ")")
/-- The method `func (v *Block) String() string`. -/
def Block.String (E : Ext) : Block → Option Str
  | .mk Nodes =>
    if Nodes.length = 0 then some ("(" ++ E.Blue "Block" ++ ": )")
    else do
      let result := "(" ++ E.Blue "Block" ++ ":\n"
      let result ← Block.stringLoop E Nodes result
      pure (result ++ ")")
/-- The loop `for _, n := range v.Nodes { result += "\t" + n.String() + "\n" }`. -/
def Block.stringLoop (E : Ext) : Slice Node → Str → Option Str
  | [], result => some result
  | n :: rest, result => do
    let s ← n.String E
    Block.stringLoop E rest (result ++ ("\t" ++ s ++ "\n"))
end

/-- The identity colour wrappers, with sample string forms for the other
collaborators: used to evaluate the serialization on concrete trees. -/
def plainExt : Ext where
  Blue := id
  Green := id
  Yellow := id
  AttrString := fun a => "[" ++ a.Key ++ "]"
  BinOpString := fun o => "op" ++ toString o.tag
  UnOpString := fun o => "op" ++ toString o.tag
  FormatFloat := fun _ => "0.000000"

/-- The string of `n` indirection markers. -/
def markers (n : Nat) : Str := String.mk (List.replicate n '^')

/-- The 18 constants of the enumeration `PrimitiveType`, in `iota` order. -/
def PrimitiveType.all : Slice PrimitiveType :=
  [.PRIMITIVE_i8, .PRIMITIVE_i16, .PRIMITIVE_i32, .PRIMITIVE_i64, .PRIMITIVE_i128,
   .PRIMITIVE_u8, .PRIMITIVE_u16, .PRIMITIVE_u32, .PRIMITIVE_u64, .PRIMITIVE_u128,
   .PRIMITIVE_f32, .PRIMITIVE_f64, .PRIMITIVE_f128,
   .PRIMITIVE_str, .PRIMITIVE_rune,
   .PRIMITIVE_int, .PRIMITIVE_uint,
   .PRIMITIVE_bool]

/-- The collaborators `E` with the three colour wrappers taken as the identity. -/
def Ext.plain (E : Ext) : Ext :=
  { E with Blue := id, Green := id, Yellow := id }

/-- The attributes as `Variable.String`, `Function.String` and `StructType.String` show
them: each attribute's string followed by one space, in `Attrs` order. -/
def attrsText (E : Ext) (attrs : Slice Attr) : Str :=
  String.join (attrs.map (fun attr => E.AttrString attr ++ " "))

/-- The children of a container as `Block.String` and `StructType.String` show them:
each child's string on a line of its own, after a tab. -/
def indentedLines (strs : Slice Str) : Str :=
  String.join (strs.map (fun s => "\t" ++ s ++ "\n"))

/-- The reading of "an entry is rendered on its own indented line" that the container
nodes `Block` and `StructType` follow: the text `out` contains the entry's string
preceded by a tab and followed by a newline. -/
def onOwnIndentedLine (entry out : Str) : Bool :=
  decide (("\t" ++ entry ++ "\n").data <:+: out.data)

/-- A sample field declaration: the variable `name` of type `i32`, immutable, without
attributes and without an initializing expression. -/
def fieldI32 (name : Str) : VariableDecl :=
  .mk (.mk (some (.primitive .PRIMITIVE_i32)) name false []) none

/-! ## Shared lemmas -/

theorem PrimitiveType.string_in_bounds (v : PrimitiveType) : 10 ≤ v.String.utf8ByteSize := by
  cases v <;> decide

theorem PrimitiveType.primitive_typeName_defined (v : PrimitiveType) : ∃ name, v.TypeName = some name := by
  exact ⟨String.mk (v.String.data.drop 10), if_pos (PrimitiveType.string_in_bounds v)⟩

theorem PointerType.typeName_mk (t : Ty) :
    (PointerType.mk t).TypeName = t.TypeName.bind (fun name => some ("^" ++ name)) := by
  rw [PointerType.TypeName]
  rfl

mutual
theorem Ty.typeName_defined : ∀ t : Ty, ∃ name, t.TypeName = some name
  | .primitive v => PrimitiveType.primitive_typeName_defined v
  | .struct v => ⟨v.TypeName, rfl⟩
  | .pointer v => PointerType.pointer_typeName_defined v
theorem PointerType.pointer_typeName_defined : ∀ v : PointerType, ∃ name, v.TypeName = some name
  | .mk t => by
    obtain ⟨name, h⟩ := Ty.typeName_defined t
    exact ⟨"^" ++ name, by rw [PointerType.typeName_mk, h]; rfl⟩
end

mutual
theorem Ty.rawType_levels : ∀ t : Ty, t.RawType.LevelsOfIndirection = 0
  | .primitive _ => rfl
  | .struct _ => rfl
  | .pointer v => PointerType.pointer_rawType_levels v
theorem PointerType.pointer_rawType_levels : ∀ v : PointerType, v.RawType.LevelsOfIndirection = 0
  | .mk t => Ty.rawType_levels t
end

theorem pointerToN_rawType (n : Nat) (t : Ty) : (pointerToN n t).RawType = t.RawType := by
  induction n with
  | zero => rfl
  | succ n ih => exact ih

theorem markers_succ (n : Nat) (name : Str) :
    "^" ++ (markers n ++ name) = markers (n + 1) ++ name := by
  apply String.ext
  simp [markers, List.replicate_succ]

theorem pointerToN_typeName (n : Nat) (t : Ty) (name : Str) (h : t.TypeName = some name) :
    (pointerToN n t).TypeName = some (markers n ++ name) := by
  induction n with
  | zero =>
    have : markers 0 ++ name = name := by apply String.ext; simp [markers]
    rw [this]; exact h
  | succ n ih =>
    show (PointerType.mk (pointerToN n t)).TypeName = _
    rw [PointerType.typeName_mk, ih, ← markers_succ]
    rfl

mutual
theorem Ty.rawType_not_pointer : ∀ t : Ty, t.RawType.isPointerType = false
  | .primitive _ => rfl
  | .struct _ => rfl
  | .pointer v => PointerType.pointer_rawType_not_pointer v
theorem PointerType.pointer_rawType_not_pointer : ∀ v : PointerType, v.RawType.isPointerType = false
  | .mk t => Ty.rawType_not_pointer t
end

theorem Ty.pointerToN_levels_rawType :
    ∀ t : Ty, pointerToN t.LevelsOfIndirection t.RawType = t
  | .primitive _ => rfl
  | .struct _ => rfl
  | .pointer (.mk t) =>
    congrArg (fun x => Ty.pointer (PointerType.mk x)) (Ty.pointerToN_levels_rawType t)

theorem mapM_nil_opt {α β : Type} (f : α → Option β) : List.mapM f [] = some [] := by
  rw [List.mapM_nil]; rfl

theorem mapM_cons_opt {α β : Type} (f : α → Option β) (a : α) (l : List α) :
    List.mapM f (a :: l) = (f a).bind (fun s => (List.mapM f l).map (fun r => s :: r)) := by
  rw [List.mapM_cons]
  cases f a with
  | none => rfl
  | some s => cases List.mapM f l <;> rfl

theorem mapM_append_opt {α β : Type} (f : α → Option β) (l₁ l₂ : List α) :
    List.mapM f (l₁ ++ l₂) =
      (List.mapM f l₁).bind (fun r₁ => (List.mapM f l₂).map (fun r₂ => r₁ ++ r₂)) := by
  rw [List.mapM_append]
  cases List.mapM f l₁ with
  | none => rfl
  | some s => cases List.mapM f l₂ <;> rfl

theorem Block.stringLoop_eq (E : Ext) (nodes : Slice Node) (result : Str) :
    Block.stringLoop E nodes result =
      (nodes.mapM (Node.String E)).map
        (fun strs => result ++ String.join (strs.map (fun s => "\t" ++ s ++ "\n"))) := by
  induction nodes generalizing result with
  | nil =>
    rw [Block.stringLoop, mapM_nil_opt]
    simp [String.join]
  | cons n rest ih =>
    rw [Block.stringLoop, mapM_cons_opt]
    cases hn : Node.String E n with
    | none => rfl
    | some s =>
      simp only [Option.bind_eq_bind, Option.some_bind, ih]
      cases hrest : List.mapM (Node.String E) rest with
      | none => rfl
      | some strs =>
        simp only [Option.map_some', Option.some.injEq]
        apply String.ext
        simp

theorem Block.string_eq (E : Ext) (b : Block) :
    b.String E =
      if b.Nodes.length = 0 then some ("(" ++ E.Blue "Block" ++ ": )")
      else (b.Nodes.mapM (Node.String E)).map (fun strs =>
        "(" ++ E.Blue "Block" ++ ":\n" ++
          String.join (strs.map (fun s => "\t" ++ s ++ "\n")) ++ ")") := by
  cases b with
  | mk Nodes =>
    rw [Block.String]
    by_cases h : Nodes.length = 0
    · simp [h, Block.Nodes]
    · simp only [h, if_false, Block.Nodes, Block.stringLoop_eq]
      cases List.mapM (Node.String E) Nodes <;> rfl

theorem Ty.rawType_of_not_pointer : ∀ t : Ty, t.isPointerType = false → t.RawType = t
  | .primitive _, _ => rfl
  | .struct _, _ => rfl
  | .pointer _, h => Bool.noConfusion h

theorem Ty.levels_pos_of_pointer : ∀ t : Ty, t.isPointerType = true → t.LevelsOfIndirection ≠ 0
  | .primitive _, h => Bool.noConfusion h
  | .struct _, h => Bool.noConfusion h
  | .pointer (.mk t), _ => Nat.succ_ne_zero t.LevelsOfIndirection

theorem Ty.typeName_eq_markers (t : Ty) (rawName : Str) (h : t.RawType.TypeName = some rawName) :
    t.TypeName = some (markers t.LevelsOfIndirection ++ rawName) := by
  have := pointerToN_typeName t.LevelsOfIndirection t.RawType rawName h
  rwa [Ty.pointerToN_levels_rawType] at this

theorem attrsLoop_eq (E : Ext) (attrs : Slice Attr) (result : Str) :
    attrsLoop E attrs result = result ++ attrsText E attrs := by
  unfold attrsLoop attrsText
  induction attrs generalizing result with
  | nil => apply String.ext; simp
  | cons a rest ih =>
    rw [List.foldl_cons, ih]
    apply String.ext
    simp

theorem Variable.variable_string_eq (E : Ext) (t : Ty) (Name : Str) (Mutable : Bool)
    (Attrs : Slice Attr) (typeName : Str) (h : t.TypeName = some typeName) :
    Variable.String E (Variable.mk (some t) Name Mutable Attrs) =
      some ("(" ++ E.Blue "Variable" ++ ": " ++ (if Mutable then E.Green "[mutable] " else "") ++
        attrsText E Attrs ++ Name ++ " " ++ E.Green typeName ++ ")") := by
  rw [Variable.String]
  simp only [Option.bind_eq_bind, Option.some_bind, h, Option.pure_def, attrsLoop_eq,
    Option.some.injEq]
  cases Mutable <;> (apply String.ext; simp)

theorem foldlM_decl_eq (f : Str → Element → Option Str) (g : VariableDecl → Option Str)
    (hf : ∀ result d, f result (Element.decl d) =
      (g d).map (fun s => result ++ ("\t" ++ s ++ "\n")))
    (fields : Slice VariableDecl) (result : Str) :
    List.foldlM f result (fields.map Element.decl) =
      (fields.mapM g).map (fun strs => result ++ indentedLines strs) := by
  induction fields generalizing result with
  | nil =>
    rw [mapM_nil_opt]
    simp [indentedLines, String.join]
  | cons d rest ih =>
    rw [List.map_cons, List.foldlM_cons, hf, mapM_cons_opt]
    cases g d with
    | none => rfl
    | some s =>
      simp only [Option.map_some', Option.bind_eq_bind, Option.some_bind, ih]
      cases List.mapM g rest with
      | none => rfl
      | some strs =>
        simp only [Option.map_some', Option.some.injEq]
        apply String.ext
        simp [indentedLines]

theorem StructType.struct_string_eq (E : Ext) (Name : Str) (fields : Slice VariableDecl)
    (Attrs : Slice Attr) :
    StructType.String E (StructType.mk Name (fields.map Element.decl) Attrs) =
      (fields.mapM (VariableDecl.String E)).map (fun strs =>
        "(" ++ E.Blue "StructType" ++ ": " ++ attrsText E Attrs ++ Name ++ "\n" ++
          indentedLines strs ++ ")") := by
  dsimp only [StructType.String, StructType.Items]
  rw [foldlM_decl_eq _ (VariableDecl.String E)]
  · cases List.mapM (VariableDecl.String E) fields with
    | none => rfl
    | some strs =>
      simp only [StructType.Attrs, StructType.Name, attrsLoop_eq, Option.map_some',
        Option.bind_eq_bind, Option.some_bind, Option.pure_def, Option.some.injEq]
      apply String.ext
      simp
  · intro result d
    cases hd : VariableDecl.String E d with
    | none => simp [Element.assertVariableDecl, hd]
    | some s => simp [Element.assertVariableDecl, hd]

theorem GoList.list_stringLoop_eq (E : Ext) (ds : Slice VariableDecl) :
    ∀ (d : VariableDecl) (result : Str),
      GoList.stringLoop E ((d :: ds).map Element.decl) result =
        ((d :: ds).mapM (VariableDecl.String E)).map (fun strs =>
          result ++ String.join (strs.intersperse " ")) := by
  induction ds with
  | nil =>
    intro d result
    rw [List.map_cons, List.map_nil, GoList.stringLoop, mapM_cons_opt, mapM_nil_opt]
    cases hd : VariableDecl.String E d with
    | none => simp [Element.assertVariableDecl, hd]
    | some s =>
      simp only [Element.assertVariableDecl, hd, Option.bind_eq_bind, Option.some_bind,
        List.isEmpty_nil, if_true, GoList.stringLoop, Option.map_some', Option.some.injEq]
      apply String.ext
      simp
  | cons d' rest ih =>
    intro d result
    rw [List.map_cons, GoList.stringLoop, mapM_cons_opt]
    cases hd : VariableDecl.String E d with
    | none => simp [Element.assertVariableDecl, hd]
    | some s =>
      have hne : (List.map Element.decl (d' :: rest)).isEmpty = false := rfl
      simp only [Element.assertVariableDecl, hd, Option.bind_eq_bind, Option.some_bind, hne,
        Bool.false_eq_true, if_false, ih]
      rw [mapM_cons_opt]
      cases VariableDecl.String E d' with
      | none => rfl
      | some s' =>
        cases List.mapM (VariableDecl.String E) rest with
        | none => rfl
        | some strs =>
          simp only [Option.some_bind, Option.map_some', Option.some.injEq]
          apply String.ext
          simp

/-! ## The type algebra -/

/-- C1: for every well-formed type `t` (built from `PrimitiveType`, `StructType` and
`PointerType`), the raw type of `t` has indirection depth 0; the same holds for the
method on a `PointerType` receiver. -/
theorem C1_rawType_levelsOfIndirection_zero (t : Ty) :
    t.RawType.LevelsOfIndirection = 0 ∧ (pointerTo t).RawType.LevelsOfIndirection = 0 :=
  ⟨Ty.rawType_levels t, Ty.rawType_levels t⟩

/-- C2: for every type `t` and every `n`, applying `pointerTo` `n` times to `t` and then
calling `RawType` returns exactly `t.RawType()`. -/
theorem C2_rawType_pointerToN (t : Ty) (n : Nat) :
    (pointerToN n t).RawType = t.RawType :=
  pointerToN_rawType n t

/-- C3: for every type `t`, the indirection depth of `pointerTo(t)` is the depth of `t`
plus one, on the `PointerType` receiver and through the interface `Type`. -/
theorem C3_levelsOfIndirection_pointerTo (t : Ty) :
    (pointerTo t).LevelsOfIndirection = t.LevelsOfIndirection + 1 ∧
    (Ty.pointer (pointerTo t)).LevelsOfIndirection = t.LevelsOfIndirection + 1 :=
  ⟨rfl, rfl⟩

/-- C4: for every type `t`, `TypeName` returns a name for `t` and for `pointerTo(t)`,
and the second is the marker `^` followed by the first; and for every `n` the name of
`t` wrapped in `n` pointer layers is exactly `n` markers followed by the name of `t`
(for every `t`, so in particular for every `t` that is not a pointer). -/
theorem C4_typeName_composition (t : Ty) :
    (∃ name, t.TypeName = some name ∧ (pointerTo t).TypeName = some ("^" ++ name)) ∧
    (∀ n : Nat, ∃ name, t.TypeName = some name ∧
      (pointerToN n t).TypeName = some (String.mk (List.replicate n '^') ++ name)) := by
  obtain ⟨name, h⟩ := Ty.typeName_defined t
  refine ⟨⟨name, h, ?_⟩, fun n => ⟨name, h, pointerToN_typeName n t name h⟩⟩
  show (PointerType.mk t).TypeName = _
  rw [PointerType.typeName_mk, h]
  rfl

/-- C5: no primitive is both an integer type and a floating type; a struct type and a
pointer type (whatever its addressee) are neither, on their own receivers and through
the interface `Type`. -/
theorem C5_integer_floating_exclusive :
    (∀ p : PrimitiveType, ¬ (p.IsIntegerType = true ∧ p.IsFloatingType = true)) ∧
    (∀ s : StructType, s.IsIntegerType = false ∧ s.IsFloatingType = false ∧
      (Ty.struct s).IsIntegerType = false ∧ (Ty.struct s).IsFloatingType = false) ∧
    (∀ t : Ty, (pointerTo t).IsIntegerType = false ∧ (pointerTo t).IsFloatingType = false ∧
      (Ty.pointer (pointerTo t)).IsIntegerType = false ∧
      (Ty.pointer (pointerTo t)).IsFloatingType = false) := by
  refine ⟨fun p => ?_, fun s => ⟨rfl, rfl, rfl, rfl⟩, fun t => ⟨rfl, rfl, rfl, rfl⟩⟩
  cases p <;> decide

/-- C6: the queries are total on well-formed types. For every variant of the
enumeration the slice `v.String()[10:]` is in bounds (the tag name is at least 10 bytes
long) and `TypeName` returns a name. For every well-formed type `t`, `TypeName` returns
a name; `RawType` and `LevelsOfIndirection` return after following the finitely many
pointer layers: the raw type is not a pointer and `t` is its raw type wrapped in
`LevelsOfIndirection` pointer layers; and the two classification queries return a
boolean. -/
theorem C6_type_queries_total :
    (∀ v : PrimitiveType, 10 ≤ v.String.utf8ByteSize ∧ ∃ name, v.TypeName = some name) ∧
    (∀ t : Ty, (∃ name, t.TypeName = some name) ∧
      (∃ raw depth, t.RawType = raw ∧ t.LevelsOfIndirection = depth ∧
        raw.isPointerType = false ∧ pointerToN depth raw = t) ∧
      (∃ b, t.IsIntegerType = b) ∧ (∃ b, t.IsFloatingType = b)) :=
  ⟨fun v => ⟨PrimitiveType.string_in_bounds v, PrimitiveType.primitive_typeName_defined v⟩,
   fun t => ⟨Ty.typeName_defined t,
     ⟨_, _, rfl, rfl, Ty.rawType_not_pointer t, Ty.pointerToN_levels_rawType t⟩,
     ⟨_, rfl⟩, ⟨_, rfl⟩⟩⟩

/-- C10: for every struct type `s`, whatever its name, fields and attributes:
`RawType` is `s` itself, the indirection depth is 0, `s` is neither an integer nor a
floating type, and `TypeName` is the field `Name`; on the receiver and through the
interface `Type`. -/
theorem C10_structType_queries (Name : Str) (Items : Slice Element) (Attrs : Slice Attr) :
    let s := StructType.mk Name Items Attrs
    s.RawType = Ty.struct s ∧ s.LevelsOfIndirection = 0 ∧
    s.IsIntegerType = false ∧ s.IsFloatingType = false ∧ s.TypeName = Name ∧
    (Ty.struct s).RawType = Ty.struct s ∧ (Ty.struct s).LevelsOfIndirection = 0 ∧
    (Ty.struct s).IsIntegerType = false ∧ (Ty.struct s).IsFloatingType = false ∧
    (Ty.struct s).TypeName = some Name :=
  ⟨rfl, rfl, rfl, rfl, rfl, rfl, rfl, rfl, rfl, rfl⟩

/-! ## Expressions and blocks -/

/-- C7: a `BinaryExpr` or `UnaryExpr` whose `Type` field is unset answers `GetType()`
with `nil`, the unresolved value: it is no resolved type, so in particular no primitive
type and not the zero-valued primitive `PRIMITIVE_i8`, and it differs from the answer
of the same expression once its `Type` is set to any `t`. This holds in particular for
`BinaryExpr(IntegerLiteral(2), op, IntegerLiteral(3))` with any operator `op`. -/
theorem C7_getType_unresolved :
    (∀ (Lhand Rhand : Expr) (Op : BinOpType),
      (BinaryExpr.mk Lhand Rhand Op none).GetType = none ∧
      (Expr.binary (BinaryExpr.mk Lhand Rhand Op none)).GetType = none ∧
      (∀ t : Ty, (BinaryExpr.mk Lhand Rhand Op none).GetType ≠ some t) ∧
      (∀ p : PrimitiveType,
        (BinaryExpr.mk Lhand Rhand Op none).GetType ≠ some (Ty.primitive p)) ∧
      (∀ t : Ty, (BinaryExpr.mk Lhand Rhand Op (some t)).GetType = some t ∧
        (BinaryExpr.mk Lhand Rhand Op none).GetType ≠
          (BinaryExpr.mk Lhand Rhand Op (some t)).GetType)) ∧
    (∀ (operand : Expr) (Op : UnOpType),
      (UnaryExpr.mk operand Op none).GetType = none ∧
      (Expr.unary (UnaryExpr.mk operand Op none)).GetType = none ∧
      (∀ t : Ty, (UnaryExpr.mk operand Op none).GetType ≠ some t) ∧
      (∀ p : PrimitiveType,
        (UnaryExpr.mk operand Op none).GetType ≠ some (Ty.primitive p)) ∧
      (∀ t : Ty, (UnaryExpr.mk operand Op (some t)).GetType = some t ∧
        (UnaryExpr.mk operand Op none).GetType ≠
          (UnaryExpr.mk operand Op (some t)).GetType)) ∧
    (∀ Op : BinOpType,
      (Expr.binary (BinaryExpr.mk (Expr.integer ⟨2⟩) (Expr.integer ⟨3⟩) Op none)).GetType = none ∧
      (Expr.binary (BinaryExpr.mk (Expr.integer ⟨2⟩) (Expr.integer ⟨3⟩) Op none)).GetType ≠
        some (Ty.primitive PrimitiveType.PRIMITIVE_i8)) :=
  ⟨fun _ _ _ => ⟨rfl, rfl, fun _ h => Option.noConfusion h, fun _ h => Option.noConfusion h,
      fun _ => ⟨rfl, fun h => Option.noConfusion h⟩⟩,
   fun _ _ => ⟨rfl, rfl, fun _ h => Option.noConfusion h, fun _ h => Option.noConfusion h,
      fun _ => ⟨rfl, fun h => Option.noConfusion h⟩⟩,
   fun _ => ⟨rfl, fun h => Option.noConfusion h⟩⟩

/-- C8: `GetType()` of a literal is a constant, whatever the value and with no analysis:
`PRIMITIVE_rune` for a `RuneLiteral`, `PRIMITIVE_int` for an `IntegerLiteral`,
`PRIMITIVE_f64` for a `FloatingLiteral` and `PRIMITIVE_str` for a `StringLiteral`, on the
receiver and through the interface `Expr`. -/
theorem C8_literal_getType :
    (∀ v : RuneLiteral, v.GetType = some (Ty.primitive PrimitiveType.PRIMITIVE_rune) ∧
      (Expr.rune v).GetType = some (Ty.primitive PrimitiveType.PRIMITIVE_rune)) ∧
    (∀ v : IntegerLiteral, v.GetType = some (Ty.primitive PrimitiveType.PRIMITIVE_int) ∧
      (Expr.integer v).GetType = some (Ty.primitive PrimitiveType.PRIMITIVE_int)) ∧
    (∀ v : FloatingLiteral, v.GetType = some (Ty.primitive PrimitiveType.PRIMITIVE_f64) ∧
      (Expr.floating v).GetType = some (Ty.primitive PrimitiveType.PRIMITIVE_f64)) ∧
    (∀ v : StringLiteral, v.GetType = some (Ty.primitive PrimitiveType.PRIMITIVE_str) ∧
      (Expr.string v).GetType = some (Ty.primitive PrimitiveType.PRIMITIVE_str)) :=
  ⟨fun _ => ⟨rfl, rfl⟩, fun _ => ⟨rfl, rfl⟩, fun _ => ⟨rfl, rfl⟩, fun _ => ⟨rfl, rfl⟩⟩

/-- C9: a block keeps append order. `appendNode(n)` leaves the existing nodes unchanged
and in place and adds `n` as the last element, so appending `A`, `B`, `C` to
`newBlock()` gives the nodes `[A, B, C]`; and `String()` of a block with nodes lists the
string forms of its children in the order of `Nodes` (each on a line of its own,
between the header and the closing bracket), failing only if a child's `String()`
fails: after `appendNode(n)` the string form of `n` comes last, after those of the
existing nodes, and after appending `A`, `B`, `C` the forms come in that order. -/
theorem C9_block_append_order (E : Ext) (b : Block) (n A B C : Node) :
    (b.appendNode n).Nodes = b.Nodes ++ [n] ∧
    (b.appendNode n).Nodes.length = b.Nodes.length + 1 ∧
    (b.appendNode n).Nodes.take b.Nodes.length = b.Nodes ∧
    (b.appendNode n).Nodes.getLast? = some n ∧
    (((newBlock.appendNode A).appendNode B).appendNode C).Nodes = [A, B, C] ∧
    b.String E =
      (if b.Nodes.length = 0 then some ("(" ++ E.Blue "Block" ++ ": )")
       else (b.Nodes.mapM (Node.String E)).map (fun strs =>
        "(" ++ E.Blue "Block" ++ ":\n" ++
          String.join (strs.map (fun s => "\t" ++ s ++ "\n")) ++ ")")) ∧
    (b.appendNode n).String E =
      (b.Nodes.mapM (Node.String E)).bind (fun strs =>
        (n.String E).map (fun s =>
          "(" ++ E.Blue "Block" ++ ":\n" ++
            String.join (strs.map (fun s => "\t" ++ s ++ "\n")) ++
            ("\t" ++ s ++ "\n") ++ ")")) ∧
    (((newBlock.appendNode A).appendNode B).appendNode C).String E =
      (A.String E).bind (fun a => (B.String E).bind (fun b => (C.String E).map (fun c =>
        "(" ++ E.Blue "Block" ++ ":\n" ++
          ("\t" ++ a ++ "\n") ++ ("\t" ++ b ++ "\n") ++ ("\t" ++ c ++ "\n") ++ ")"))) := by
  refine ⟨rfl, by simp [Block.appendNode, Block.Nodes], by simp [Block.appendNode, Block.Nodes],
    by simp [Block.appendNode, Block.Nodes], rfl, Block.string_eq E b, ?_, ?_⟩
  · rw [Block.string_eq]
    have hne : ¬ (b.appendNode n).Nodes.length = 0 := by simp [Block.appendNode, Block.Nodes]
    simp only [hne, if_false]
    show Option.map _ (List.mapM (Node.String E) (b.Nodes ++ [n])) = _
    rw [mapM_append_opt, mapM_cons_opt, mapM_nil_opt]
    cases hb : List.mapM (Node.String E) b.Nodes with
    | none => rfl
    | some strs =>
      cases hn : Node.String E n with
      | none => rfl
      | some s =>
        simp only [Option.some_bind, Option.map_some', Option.some.injEq]
        apply String.ext
        simp
  · rw [Block.string_eq]
    show (if (3 : Nat) = 0 then _ else Option.map _ (List.mapM (Node.String E) [A, B, C])) = _
    rw [mapM_cons_opt, mapM_cons_opt, mapM_cons_opt, mapM_nil_opt]
    cases hA : Node.String E A with
    | none => rfl
    | some a =>
      cases hB : Node.String E B with
      | none => rfl
      | some b =>
        cases hC : Node.String E C with
        | none => rfl
        | some c =>
          simp only [OfNat.ofNat_ne_zero, if_false, Option.some_bind, Option.map_some',
            Option.some.injEq]
          apply String.ext
          simp

/-! ## Primitive names, classification and the algebra of the three queries -/

/-- C14: primitive display names are in bijection with the enumeration. The
enumeration has the 18 variants of `PrimitiveType.all`; for every variant the tag name
is `PRIMITIVE_` followed by the name `TypeName` returns; the 18 names are i8, i16, i32,
i64, i128, u8, u16, u32, u64, u128, f32, f64, f128, str, rune, int, uint, bool in
enumeration order; and two distinct variants never have the same `TypeName` (the map
is injective). -/
theorem C14_primitive_typeName_bijection :
    (∀ v : PrimitiveType, v ∈ PrimitiveType.all) ∧ PrimitiveType.all.length = 18 ∧
    (∀ v : PrimitiveType, ∃ name, v.TypeName = some name ∧ v.String = "PRIMITIVE_" ++ name) ∧
    PrimitiveType.all.map PrimitiveType.TypeName =
      [some "i8", some "i16", some "i32", some "i64", some "i128",
       some "u8", some "u16", some "u32", some "u64", some "u128",
       some "f32", some "f64", some "f128", some "str", some "rune",
       some "int", some "uint", some "bool"] ∧
    Function.Injective PrimitiveType.TypeName := by
  refine ⟨fun v => by cases v <;> decide, rfl, fun v => ?_, by decide, fun p q h => ?_⟩
  · refine ⟨String.mk (v.String.data.drop 10), ?_, ?_⟩ <;> cases v <;> decide
  · cases p <;> cases q <;> first | rfl | exact absurd h (by decide)

/-- C15: for `t = pointerTo(pointerTo(PRIMITIVE_i32))`, the indirection depth is 2, the
raw type is `PRIMITIVE_i32` and the name is `^^i32`. -/
theorem C15_pointer_pointer_i32 :
    (Ty.pointer (pointerTo (Ty.pointer (pointerTo
      (Ty.primitive PrimitiveType.PRIMITIVE_i32))))).LevelsOfIndirection = 2 ∧
    (pointerTo (Ty.pointer (pointerTo
      (Ty.primitive PrimitiveType.PRIMITIVE_i32)))).LevelsOfIndirection = 2 ∧
    (pointerTo (Ty.pointer (pointerTo
      (Ty.primitive PrimitiveType.PRIMITIVE_i32)))).RawType =
        Ty.primitive PrimitiveType.PRIMITIVE_i32 ∧
    (pointerTo (Ty.pointer (pointerTo
      (Ty.primitive PrimitiveType.PRIMITIVE_i32)))).TypeName = some "^^i32" :=
  ⟨rfl, rfl, rfl, by decide⟩

/-- C16: `IsIntegerType` is true for exactly the twelve primitives i8, i16, i32, i64,
i128, u8, u16, u32, u64, u128, int and uint; `IsFloatingType` is true for exactly f32,
f64 and f128; and the primitives that are neither are exactly str, rune and bool. -/
theorem C16_primitive_classification (p : PrimitiveType) :
    (p.IsIntegerType = true ↔
      p ∈ [PrimitiveType.PRIMITIVE_i8, PrimitiveType.PRIMITIVE_i16,
        PrimitiveType.PRIMITIVE_i32, PrimitiveType.PRIMITIVE_i64,
        PrimitiveType.PRIMITIVE_i128, PrimitiveType.PRIMITIVE_u8,
        PrimitiveType.PRIMITIVE_u16, PrimitiveType.PRIMITIVE_u32,
        PrimitiveType.PRIMITIVE_u64, PrimitiveType.PRIMITIVE_u128,
        PrimitiveType.PRIMITIVE_int, PrimitiveType.PRIMITIVE_uint]) ∧
    (p.IsFloatingType = true ↔
      p ∈ [PrimitiveType.PRIMITIVE_f32, PrimitiveType.PRIMITIVE_f64,
        PrimitiveType.PRIMITIVE_f128]) ∧
    ((p.IsIntegerType = false ∧ p.IsFloatingType = false) ↔
      p ∈ [PrimitiveType.PRIMITIVE_str, PrimitiveType.PRIMITIVE_rune,
        PrimitiveType.PRIMITIVE_bool]) := by
  cases p <;> decide

/-- C18: for every well-formed type `t`, `TypeName` decomposes through the other two
queries: the raw type has a name, and the name of `t` is `LevelsOfIndirection` copies
of the marker `^` followed by the name of the raw type. -/
theorem C18_typeName_decomposition (t : Ty) :
    ∃ rawName, t.RawType.TypeName = some rawName ∧
      t.TypeName = some (String.mk (List.replicate t.LevelsOfIndirection '^') ++ rawName) := by
  obtain ⟨rawName, h⟩ := Ty.typeName_defined t.RawType
  exact ⟨rawName, h, Ty.typeName_eq_markers t rawName h⟩

/-- C19: for every well-formed type `t`, `RawType` is idempotent and its result is never
a `PointerType`; and `t.RawType()` is `t` exactly when the indirection depth of `t` is
0, which is exactly when `t` is not a `PointerType`. -/
theorem C19_rawType_idempotent (t : Ty) :
    t.RawType.RawType = t.RawType ∧ t.RawType.isPointerType = false ∧
    (t.RawType = t ↔ t.LevelsOfIndirection = 0) ∧
    (t.LevelsOfIndirection = 0 ↔ t.isPointerType = false) := by
  have hlev : t.LevelsOfIndirection = 0 ↔ t.isPointerType = false := by
    constructor
    · intro h
      cases hp : t.isPointerType with
      | false => rfl
      | true => exact absurd h (Ty.levels_pos_of_pointer t hp)
    · intro h
      have := Ty.rawType_levels t
      rwa [Ty.rawType_of_not_pointer t h] at this
  refine ⟨Ty.rawType_of_not_pointer _ (Ty.rawType_not_pointer t), Ty.rawType_not_pointer t,
    ⟨fun h => ?_, fun h => Ty.rawType_of_not_pointer t (hlev.mp h)⟩, hlev⟩
  have := Ty.rawType_levels t
  rwa [h] at this

/-- C20: `TypeName` does not identify a type. A struct type named `i32` (whatever its
fields and attributes) has the name of `PRIMITIVE_i32` and is a different type; a
struct type named `^i32` has the name of `pointerTo(PRIMITIVE_i32)` and is a different
type, of indirection depth 0 where the pointer has depth 1; so `TypeName` is not
injective. -/
theorem C20_typeName_not_injective (Items : Slice Element) (Attrs : Slice Attr) :
    (Ty.struct (StructType.mk "i32" Items Attrs)).TypeName =
      (Ty.primitive PrimitiveType.PRIMITIVE_i32).TypeName ∧
    Ty.struct (StructType.mk "i32" Items Attrs) ≠ Ty.primitive PrimitiveType.PRIMITIVE_i32 ∧
    (Ty.struct (StructType.mk "^i32" Items Attrs)).TypeName =
      (Ty.pointer (pointerTo (Ty.primitive PrimitiveType.PRIMITIVE_i32))).TypeName ∧
    Ty.struct (StructType.mk "^i32" Items Attrs) ≠
      Ty.pointer (pointerTo (Ty.primitive PrimitiveType.PRIMITIVE_i32)) ∧
    (Ty.struct (StructType.mk "^i32" Items Attrs)).LevelsOfIndirection = 0 ∧
    (Ty.pointer (pointerTo (Ty.primitive PrimitiveType.PRIMITIVE_i32))).LevelsOfIndirection = 1 ∧
    ¬ Function.Injective Ty.TypeName := by
  have h1 : (Ty.struct (StructType.mk "i32" Items Attrs)).TypeName =
      (Ty.primitive PrimitiveType.PRIMITIVE_i32).TypeName := by
    show some "i32" = PrimitiveType.PRIMITIVE_i32.TypeName
    decide
  have h2 : (Ty.struct (StructType.mk "^i32" Items Attrs)).TypeName =
      (Ty.pointer (pointerTo (Ty.primitive PrimitiveType.PRIMITIVE_i32))).TypeName := by
    show some "^i32" = _
    decide
  exact ⟨h1, fun h => Ty.noConfusion h, h2, fun h => Ty.noConfusion h, rfl, rfl,
    fun hinj => Ty.noConfusion (hinj h1)⟩

/-! ## Serialization -/

/-- C13: for every variable `v` with a non-nil `Type`, `v.String()` is `(Variable: `,
then `[mutable] ` if and only if `v.Mutable`, then each attribute's string followed by
one space in `Attrs` order, then `v.Name`, one space, `v.Type.TypeName()` and `)`,
each coloured part inside its colour wrapper; with the colour wrappers taken as the
identity this is the plain text, and the marker is absent when `Mutable` is false. -/
theorem C13_variable_string (E : Ext) (t : Ty) (Name : Str) (Mutable : Bool)
    (Attrs : Slice Attr) :
    ∃ typeName, t.TypeName = some typeName ∧
      Variable.String E (Variable.mk (some t) Name Mutable Attrs) =
        some ("(" ++ E.Blue "Variable" ++ ": " ++
          (if Mutable then E.Green "[mutable] " else "") ++
          String.join (Attrs.map (fun attr => E.AttrString attr ++ " ")) ++
          Name ++ " " ++ E.Green typeName ++ ")") ∧
      Variable.String E.plain (Variable.mk (some t) Name Mutable Attrs) =
        some ("(Variable: " ++ (if Mutable then "[mutable] " else "") ++
          String.join (Attrs.map (fun attr => E.AttrString attr ++ " ")) ++
          Name ++ " " ++ typeName ++ ")") ∧
      Variable.String E.plain (Variable.mk (some t) Name true Attrs) =
        some ("(Variable: [mutable] " ++
          String.join (Attrs.map (fun attr => E.AttrString attr ++ " ")) ++
          Name ++ " " ++ typeName ++ ")") ∧
      Variable.String E.plain (Variable.mk (some t) Name false Attrs) =
        some ("(Variable: " ++
          String.join (Attrs.map (fun attr => E.AttrString attr ++ " ")) ++
          Name ++ " " ++ typeName ++ ")") := by
  obtain ⟨typeName, h⟩ := Ty.typeName_defined t
  refine ⟨typeName, h, Variable.variable_string_eq E t Name Mutable Attrs typeName h, ?_, ?_, ?_⟩
  · rw [Variable.variable_string_eq E.plain t Name Mutable Attrs typeName h]
    rfl
  · rw [Variable.variable_string_eq E.plain t Name true Attrs typeName h]
    simp only [Option.some.injEq]
    apply String.ext
    simp [attrsText, Ext.plain]
  · rw [Variable.variable_string_eq E.plain t Name false Attrs typeName h]
    simp only [Option.some.injEq]
    apply String.ext
    simp [attrsText, Ext.plain]

/-- C17: `Block.String()` has exactly two shapes. For a block with no nodes it is
`(Block: )` on one line. For a block with nodes `n1..nk`, `k >= 1`, it is `(Block:`
and a newline, then for each node in order a tab, the node's string and a newline,
then `)`; it fails only if a node's `String()` fails. The word `Block` is inside its
colour wrapper, which is the identity for the collaborators `E.plain`. -/
theorem C17_block_string_shapes (E : Ext) (n : Node) (rest : Slice Node) :
    (Block.mk []).String E = some ("(" ++ E.Blue "Block" ++ ": )") ∧
    (Block.mk []).String E.plain = some "(Block: )" ∧
    newBlock.String E.plain = some "(Block: )" ∧
    (Block.mk (n :: rest)).String E =
      ((n :: rest).mapM (Node.String E)).map (fun strs =>
        "(" ++ E.Blue "Block" ++ ":\n" ++
          String.join (strs.map (fun s => "\t" ++ s ++ "\n")) ++ ")") ∧
    (Block.mk (n :: rest)).String E.plain =
      ((n :: rest).mapM (Node.String E.plain)).map (fun strs =>
        "(Block:\n" ++ String.join (strs.map (fun s => "\t" ++ s ++ "\n")) ++ ")") := by
  have hcons : ∀ E' : Ext, (Block.mk (n :: rest)).String E' =
      ((n :: rest).mapM (Node.String E')).map (fun strs =>
        "(" ++ E'.Blue "Block" ++ ":\n" ++
          String.join (strs.map (fun s => "\t" ++ s ++ "\n")) ++ ")") := by
    intro E'
    rw [Block.string_eq]
    rfl
  exact ⟨rfl, rfl, rfl, hcons E, hcons E.plain⟩

/-- C11: for every struct type whose items are all `VariableDecl` entries, `String()`
is `(StructType: `, then each attribute's string and a space, the struct name and a
newline, then for each field in list order a tab, the field's `VariableDecl.String()`
and a newline, then `)`; it fails only if a field's `String()` fails. The word
`StructType` is inside its colour wrapper, the identity for `E.plain`. In particular
the struct `Point` with the `i32` fields `x` then `y` serializes `x` before `y`. -/
theorem C11_structType_string (E : Ext) (Name : Str) (fields : Slice VariableDecl)
    (Attrs : Slice Attr) :
    StructType.String E (StructType.mk Name (fields.map Element.decl) Attrs) =
      (fields.mapM (VariableDecl.String E)).map (fun strs =>
        "(" ++ E.Blue "StructType" ++ ": " ++
          String.join (Attrs.map (fun attr => E.AttrString attr ++ " ")) ++ Name ++ "\n" ++
          String.join (strs.map (fun s => "\t" ++ s ++ "\n")) ++ ")") ∧
    StructType.String E.plain (StructType.mk Name (fields.map Element.decl) Attrs) =
      (fields.mapM (VariableDecl.String E.plain)).map (fun strs =>
        "(StructType: " ++
          String.join (Attrs.map (fun attr => E.AttrString attr ++ " ")) ++ Name ++ "\n" ++
          String.join (strs.map (fun s => "\t" ++ s ++ "\n")) ++ ")") ∧
    StructType.String E.plain
        (StructType.mk "Point" [Element.decl (fieldI32 "x"), Element.decl (fieldI32 "y")] []) =
      some ("(StructType: Point\n" ++
        "\t(VariableDecl: (Variable: x i32))\n" ++
        "\t(VariableDecl: (Variable: y i32))\n" ++ ")") :=
  ⟨StructType.struct_string_eq E Name fields Attrs, StructType.struct_string_eq E.plain Name fields Attrs,
    rfl⟩

/-- C12 (as stated, refuted): the list holding the single entry `x` of type `i32` is
rendered as `(List: (VariableDecl: (Variable: x i32)))`, on one line: the entry's
string is not preceded by a tab and followed by a newline, whereas the block holding
the same declaration does render it on its own indented line. -/
theorem C12_list_string_counterexample :
    VariableDecl.String plainExt (fieldI32 "x") = some "(VariableDecl: (Variable: x i32))" ∧
    GoList.String plainExt ⟨[Element.decl (fieldI32 "x")]⟩ =
      some "(List: (VariableDecl: (Variable: x i32)))" ∧
    onOwnIndentedLine "(VariableDecl: (Variable: x i32))"
      "(List: (VariableDecl: (Variable: x i32)))" = false ∧
    Block.String plainExt (Block.mk [Node.variableDecl (fieldI32 "x")]) =
      some "(Block:\n\t(VariableDecl: (Variable: x i32))\n)" ∧
    onOwnIndentedLine "(VariableDecl: (Variable: x i32))"
      "(Block:\n\t(VariableDecl: (Variable: x i32))\n)" = true := by
  decide

/-- C12 (amended): for every list holding one or more `VariableDecl` entries,
`List.String()` renders the entries on one line: `(List: `, then the entries' strings
in list order separated by single spaces, then `)`, with no tab and no newline added;
it fails only if an entry's `String()` fails. -/
theorem C12_list_string_one_line (E : Ext) (d : VariableDecl) (ds : Slice VariableDecl) :
    GoList.String E ⟨(d :: ds).map Element.decl⟩ =
      ((d :: ds).mapM (VariableDecl.String E)).map (fun strs =>
        "(" ++ E.Blue "List" ++ ": " ++ String.join (strs.intersperse " ") ++ ")") ∧
    GoList.String E.plain ⟨(d :: ds).map Element.decl⟩ =
      ((d :: ds).mapM (VariableDecl.String E.plain)).map (fun strs =>
        "(List: " ++ String.join (strs.intersperse " ") ++ ")") := by
  have key : ∀ E' : Ext, GoList.String E' ⟨(d :: ds).map Element.decl⟩ =
      ((d :: ds).mapM (VariableDecl.String E')).map (fun strs =>
        "(" ++ E'.Blue "List" ++ ": " ++ String.join (strs.intersperse " ") ++ ")") := by
    intro E'
    unfold GoList.String
    simp only [Option.bind_eq_bind, GoList.list_stringLoop_eq, Option.pure_def]
    cases List.mapM (VariableDecl.String E') (d :: ds) with
    | none => rfl
    | some strs => rfl
  exact ⟨key E, key E.plain⟩

end parser
